import Mathlib

/-!
Verification development for py-opw-kinematics (src/lib.rs, src/kinematic_model.rs).

The Rust code is shallowly embedded. Machine `f64` scalars are modelled as exact
rationals `ℚ`; `i32` results carry the saturating float-to-int cast explicitly.
The external collaborator crate `rs_opw_kinematics` (the analytic OPW solver and
its `Base`/`Tool` frame wrappers) is not part of this repository; it is modelled
as an opaque interface (`Kinematics`, `SolverImpl`) following the spec's
"External interfaces" contract, and every theorem quantifies over it.
The external `polars` DataFrame is modelled as a list of named columns, where a
column either casts to `Float64` cell-wise (cells nullable) or fails the cast.
-/

/-- The value of the `f64` constant pi, as an exact rational. -/
def piQ : ℚ := 3.141592653589793

/-- Rust `f64::to_radians`: multiplication by pi / 180. -/
def to_radians (x : ℚ) : ℚ := x * (piQ / 180)

/-- Rust `f64::to_degrees`: multiplication by 180 / pi.  In this exact-rational
model `to_degrees` is the exact inverse of `to_radians`. -/
def to_degrees (x : ℚ) : ℚ := x * (180 / piQ)

/-- Rust float-to-`i32` `as`-cast: saturates at the `i32` bounds. -/
def satI32 (n : ℤ) : ℤ := max (-2147483648) (min 2147483647 n)

/-- src/lib.rs `quadrant`: `(joint / 90.0).floor() as i32`. -/
def quadrant (joint : ℚ) : ℤ := satI32 ⌊joint / 90⌋

/-- A 6-joint vector (`[f64; 6]`). -/
abbrev Joints := Fin 6 → ℚ

/-- A 3-vector (`[f64; 3]`). -/
abbrev Vec3 := Fin 3 → ℚ

/-- nalgebra `Quaternion`: scalar part `w`, vector part `(x, y, z)`.
`Quaternion::new` takes the components in the order `(w, x, y, z)`. -/
structure Quat where
  w : ℚ
  x : ℚ
  y : ℚ
  z : ℚ

/-- nalgebra `Quaternion::new(w, x, y, z)`. -/
def Quat.new (w x y z : ℚ) : Quat := ⟨w, x, y, z⟩

/-- nalgebra storage: `q.coords` holds the components in the order
`[x, y, z, w]` (vector part first, scalar part last). -/
def Quat.coords (q : Quat) : Fin 4 → ℚ := ![q.x, q.y, q.z, q.w]

/-- Squared norm of a quaternion. -/
def Quat.normSq (q : Quat) : ℚ := q.w ^ 2 + q.x ^ 2 + q.y ^ 2 + q.z ^ 2

/-- Hamilton product of quaternions. -/
def Quat.mul (p q : Quat) : Quat :=
  ⟨p.w * q.w - p.x * q.x - p.y * q.y - p.z * q.z,
   p.w * q.x + p.x * q.w + p.y * q.z - p.z * q.y,
   p.w * q.y - p.x * q.z + p.y * q.w + p.z * q.x,
   p.w * q.z + p.x * q.y - p.y * q.x + p.z * q.w⟩

/-- Quaternion conjugate. -/
def Quat.conj (q : Quat) : Quat := ⟨q.w, -q.x, -q.y, -q.z⟩

/-- Componentwise scaling of a quaternion. -/
def Quat.scale (lam : ℚ) (q : Quat) : Quat := ⟨lam * q.w, lam * q.x, lam * q.y, lam * q.z⟩

/-- nalgebra `UnitQuaternion::from_quaternion(q)` normalizes `q` to `q / norm q`.
Over exact rationals the square root is unavailable, so the unit quaternion is
represented by the raw quaternion it was built from, and its rotation action
`UnitQuat.rotate` is the square-root-free normalized sandwich product
`q v (conj q) / normSq q`, which coincides with the action of `q / norm q`. -/
structure UnitQuat where
  q : Quat

/-- nalgebra `UnitQuaternion::from_quaternion`. -/
def UnitQuaternion.from_quaternion (q : Quat) : UnitQuat := ⟨q⟩

/-- The rotation action of the (normalized) unit quaternion on a 3-vector:
the vector part of `q * (0, v) * conj q`, divided by the squared norm of `q`.
For a zero quaternion this yields division by zero (junk), mirroring the NaNs
the floating-point code would produce. -/
def UnitQuat.rotate (u : UnitQuat) (v : Vec3) : Vec3 :=
  let r := (u.q.mul (Quat.new 0 (v 0) (v 1) (v 2))).mul u.q.conj
  ![r.x / u.q.normSq, r.y / u.q.normSq, r.z / u.q.normSq]

/-- Squared Euclidean norm of a 3-vector. -/
def norm3Sq (v : Vec3) : ℚ := (v 0) ^ 2 + (v 1) ^ 2 + (v 2) ^ 2

/-- nalgebra `Isometry3`: a translation plus a unit-quaternion rotation.
Also the solver's native `Pose` type (`Pose = Isometry3<f64>`). -/
structure Iso where
  translation : Vec3
  rotation : UnitQuat

/-- nalgebra `Isometry3::from_parts`. -/
def Isometry3.from_parts (t : Vec3) (r : UnitQuat) : Iso := ⟨t, r⟩

/-- src/kinematic_model.rs `KinematicModel`: 7 geometry scalars, 6 joint
offsets (radians), 6 sign corrections (`i8`, modelled as `ℤ`). -/
structure KinematicModel where
  a1 : ℚ
  a2 : ℚ
  b : ℚ
  c1 : ℚ
  c2 : ℚ
  c3 : ℚ
  c4 : ℚ
  offsets : Fin 6 → ℚ
  sign_corrections : Fin 6 → ℤ

/-- src/kinematic_model.rs `KinematicModel::new`: stores the fields with no
validation and always succeeds (`Ok`). -/
def KinematicModel.new (a1 a2 b c1 c2 c3 c4 : ℚ) (offsets : Fin 6 → ℚ)
    (sign_corrections : Fin 6 → ℤ) : Except String KinematicModel :=
  Except.ok ⟨a1, a2, b, c1, c2, c3, c4, offsets, sign_corrections⟩

/-- The external solver collaborator interface (`rs_opw_kinematics`), per the
spec's external-interface contract: forward kinematics, seed-directed
multi-branch inverse kinematics (candidate order significant), and a
singularity predicate. All joint vectors here are in radians. -/
structure Kinematics where
  forward : Joints → Iso
  inverse_continuing : Iso → Joints → List Joints
  kinematic_singularity : Joints → Option Unit

/-- The external solver crate as a whole, per the spec's contract:
`construct` builds a solver from a `KinematicModel` (invalid geometry yields a
construction error); `wrapBase` is `rs_opw_kinematics::tool::Base` (the solver
mounted on a base transform) and `wrapTool` is `rs_opw_kinematics::tool::Tool`
(a tool transform appended to the flange); both produce the composed
`Kinematics` the spec calls the FrameComposer. -/
structure SolverImpl where
  construct : KinematicModel → Except String Kinematics
  wrapBase : Kinematics → Iso → Kinematics
  wrapTool : Kinematics → Iso → Kinematics

/-- Modelled from the spec: `rs_opw_kinematics::kinematic_traits::CONSTRAINT_CENTERED`,
the Solver collaborator's canonical centered default seed constant (radians),
used whenever no caller seed is supplied; the centered seed is the all-zero
joint vector. -/
def CONSTRAINT_CENTERED : Joints := fun _ => 0

/-- src/lib.rs `BaseConfig`: base translation (world frame) and base rotation
quaternion in the order `(w, x, y, z)`. -/
structure BaseConfig where
  translation : Vec3
  rotation : Fin 4 → ℚ

/-- src/lib.rs `ToolConfig`: tool translation and rotation quaternion `(w, x, y, z)`. -/
structure ToolConfig where
  translation : Vec3
  rotation : Fin 4 → ℚ

/-- The base `Isometry3` built in `Robot::new` from a `BaseConfig`:
`Isometry3::from_parts(translation, UnitQuaternion::from_quaternion(Quaternion::new(r0, r1, r2, r3)))`. -/
def base_iso_of (base_config : BaseConfig) : Iso :=
  Isometry3.from_parts base_config.translation
    (UnitQuaternion.from_quaternion
      (Quat.new (base_config.rotation 0) (base_config.rotation 1)
        (base_config.rotation 2) (base_config.rotation 3)))

/-- The tool `Isometry3` built in `Robot::new` from a `ToolConfig`, same shape. -/
def tool_iso_of (tool_config : ToolConfig) : Iso :=
  Isometry3.from_parts tool_config.translation
    (UnitQuaternion.from_quaternion
      (Quat.new (tool_config.rotation 0) (tool_config.rotation 1)
        (tool_config.rotation 2) (tool_config.rotation 3)))

/-- src/lib.rs `Robot`: the configs, the `Tool`-wrapped kinematics chain
(`_tool`), and the kinematic model.  The base and tool isometries stored inside
the `Base`/`Tool` wrapper structs are recorded explicitly since the wrappers
themselves are opaque external code. -/
structure Robot where
  base_config : BaseConfig
  tool_config : ToolConfig
  tool : Kinematics
  base_iso : Iso
  tool_iso : Iso
  kinematic_model : KinematicModel

/-- src/lib.rs `Robot::new`: build the solver from the kinematic model, build
the base and tool isometries, wrap the solver in `Base` then `Tool`, and return
the robot.  The solver construction step belongs to the external crate; per the
spec's contract it may fail with a construction error, which propagates (and no
robot is produced); the code in this repository adds no failure of its own. -/
def Robot.new (S : SolverImpl) (kinematic_model : KinematicModel)
    (base_config : BaseConfig) (tool_config : ToolConfig) : Except String Robot :=
  match S.construct kinematic_model with
  | Except.error e => Except.error e
  | Except.ok robot =>
    let base := base_iso_of base_config
    let tool := tool_iso_of tool_config
    let robot_with_base := S.wrapBase robot base
    let robot_on_base_with_tool := S.wrapTool robot_with_base tool
    Except.ok
      { base_config := base_config
        tool_config := tool_config
        tool := robot_on_base_with_tool
        base_iso := base
        tool_iso := tool
        kinematic_model := kinematic_model }

/-- src/lib.rs `Robot::forward`: degrees to radians, call the wrapped solver,
and export the rotation by reading `pose.rotation.coords` (storage order
`[x, y, z, w]`) starting at index 3 — so the emitted array is `[w, x, y, z]`. -/
def Robot.forward (r : Robot) (joints : Joints) : Vec3 × (Fin 4 → ℚ) :=
  let jr : Joints := fun i => to_radians (joints i)
  let pose := r.tool.forward jr
  let quat : Fin 4 → ℚ :=
    ![pose.rotation.q.coords 3, pose.rotation.q.coords 0,
      pose.rotation.q.coords 1, pose.rotation.q.coords 2]
  (pose.translation, quat)

/-- src/lib.rs `Robot::convert_to_degrees`. -/
def Robot.convert_to_degrees (_r : Robot) (joints : Joints) : Joints :=
  fun i => to_degrees (joints i)

/-- src/lib.rs `Robot::axis_configuration`: `cfx` accumulates `+1` if
`joints[4] < 0`, `+2` if `joints[2] < -90`, `+4` if `joints[1] < 0`; the other
three fields are the quadrants of joints 0, 3 and 5. -/
def Robot.axis_configuration (_r : Robot) (joints : Joints) : Fin 4 → ℤ :=
  let cfx : ℤ :=
    (if joints 4 < 0 then 1 else 0) + (if joints 2 < -90 then 2 else 0) +
      (if joints 1 < 0 then 4 else 0)
  ![quadrant (joints 0), quadrant (joints 3), quadrant (joints 5), cfx]

/-- The target isometry `Robot::inverse` builds from its `pose` argument: the
quaternion components are read in the order `(w, x, y, z)`
(`Quaternion::new(pose.1[0], pose.1[1], pose.1[2], pose.1[3])`) and passed
through `UnitQuaternion::from_quaternion`. -/
def Robot.input_iso (pose : Vec3 × (Fin 4 → ℚ)) : Iso :=
  let quat := UnitQuaternion.from_quaternion
    (Quat.new (pose.2 0) (pose.2 1) (pose.2 2) (pose.2 3))
  Isometry3.from_parts pose.1 quat

/-- The seed `Robot::inverse` passes to the solver: the caller's
`current_joints` converted to radians, or `CONSTRAINT_CENTERED` when absent. -/
def Robot.seed (current_joints : Option Joints) : Joints :=
  match current_joints with
  | some joints => fun i => to_radians (joints i)
  | none => CONSTRAINT_CENTERED

/-- The raw candidate list `Robot::inverse` obtains from the solver:
`self._tool.inverse_continuing(&iso_pose, &joints)`. -/
def Robot.raw_solutions (r : Robot) (pose : Vec3 × (Fin 4 → ℚ))
    (current_joints : Option Joints) : List Joints :=
  r.tool.inverse_continuing (Robot.input_iso pose) (Robot.seed current_joints)

/-- The singularity-filtered, degree-converted solutions of `Robot::inverse`:
the candidates are zipped with their singularity markers, flagged candidates
are dropped, and survivors are converted to degrees. -/
def Robot.surviving (r : Robot) (pose : Vec3 × (Fin 4 → ℚ))
    (current_joints : Option Joints) : List Joints :=
  let solutions := r.raw_solutions pose current_joints
  let singularities := solutions.map (fun x => r.tool.kinematic_singularity x)
  ((solutions.zip singularities).filter (fun p => p.2.isNone)).map
    (fun p => r.convert_to_degrees p.1)

/-- src/lib.rs `Robot::inverse`: filter singular candidates, convert to
degrees; when a desired axis configuration is given, score each solution by
`axis[3] == axis_configuration[3]` (cfx only) and stable-sort by the key
`!score` (Rust `sort_by_key` is a stable sort; `false < true`), so scoring
solutions come first and enumeration order is kept within each group. -/
def Robot.inverse (r : Robot) (pose : Vec3 × (Fin 4 → ℚ))
    (current_joints : Option Joints)
    (axis_configuration : Option (Fin 4 → ℤ)) : List Joints :=
  let solutions := r.surviving pose current_joints
  match axis_configuration with
  | some target =>
    let solutions_with_score := solutions.map
      (fun sol => (decide ((r.axis_configuration sol) 3 = target 3), sol))
    let sorted := solutions_with_score.mergeSort (fun a b => a.1 || !b.1)
    sorted.map (fun p => p.2)
  | none => solutions

/-- A polars column as this code consumes it (polars is an external crate,
modelled from the spec): either it casts to `Float64` cell-wise with nullable
cells, or the cast to `Float64` fails (a non-numeric column). -/
inductive Column where
  | floats (cells : List (Option ℚ)) : Column
  | nonNumeric : Column

/-- Length of a column. -/
def Column.length : Column → ℕ
  | Column.floats cells => cells.length
  | Column.nonNumeric => 0

/-- A polars `DataFrame`: named columns (matched by exact, case-sensitive
name; in polars every column has length `height`) together with its height. -/
structure DataFrame where
  cols : List (String × Column)
  height : ℕ

/-- polars `df.column(name)`: exact-name lookup, extra columns ignored. -/
def DataFrame.column (df : DataFrame) (name : String) : Option Column :=
  (df.cols.find? (fun c => c.1 == name)).map (fun c => c.2)

/-- `Float64Chunked::get(i)`: `none` for a null cell or an out-of-range index. -/
def chunkedGet (cells : List (Option ℚ)) (i : ℕ) : Option ℚ := cells.getD i none

/-- The cell of a named float column at a row, `none` when the column is
missing or non-numeric or the cell is null. -/
def DataFrame.cell (df : DataFrame) (name : String) (i : ℕ) : Option ℚ :=
  match df.column name with
  | some (Column.floats cells) => chunkedGet cells i
  | _ => none

/-- The error message of src/lib.rs `extract_column_f64` when the column is
missing.  The Rust message is `format!("Error extracting column '{}': {}",
column_name, e)`; the quotes around the name and the polars error display are
flattened here. -/
def err_extract (column_name : String) : String :=
  "Error extracting column " ++ column_name ++ ": ColumnNotFound"

/-- The error message of src/lib.rs `extract_column_f64` when the cast of the
column to `f64` fails, flattened the same way. -/
def err_cast (column_name : String) : String :=
  "Error casting column " ++ column_name ++ " to f64: InvalidOperation"

/-- src/lib.rs `extract_column_f64`: look the column up by exact name (error
naming the column when missing), cast it to `Float64` (error naming the column
when the cast fails), and return the nullable cells.  The final `.f64()` view
of an already-`Float64` column cannot fail. -/
def extract_column_f64 (df : DataFrame) (column_name : String) :
    Except String (List (Option ℚ)) :=
  match df.column column_name with
  | none => Except.error (err_extract column_name)
  | some Column.nonNumeric => Except.error (err_cast column_name)
  | some (Column.floats cells) => Except.ok cells

/-- One row of `Robot::batch_inverse`: when all seven pose cells are present,
run `inverse` with no seed and the given desired configuration and keep only
the first solution; otherwise (or when no solution survives) the row is null. -/
def Robot.inverse_row (r : Robot) (axis_configuration : Option (Fin 4 → ℤ))
    (cells : Fin 7 → Option ℚ) : Option Joints :=
  match cells 0, cells 1, cells 2, cells 3, cells 4, cells 5, cells 6 with
  | some x, some y, some z, some a, some b, some c, some d =>
    (r.inverse (![x, y, z], ![a, b, c, d]) none axis_configuration).head?
  | _, _, _, _, _, _, _ => none

/-- The seven extracted cells of row `i` of a `batch_inverse` input, in the
column order X, Y, Z, A, B, C, D. -/
def inverse_input_row (x y z a b c d : List (Option ℚ)) (i : ℕ) : Fin 7 → Option ℚ :=
  ![chunkedGet x i, chunkedGet y i, chunkedGet z i, chunkedGet a i,
    chunkedGet b i, chunkedGet c i, chunkedGet d i]

/-- src/lib.rs `Robot::batch_inverse`: extract the seven required columns (any
failure aborts the whole call), then process each row independently with
`inverse_row` and emit the six joint columns; the output has one row per input
row. -/
def Robot.batch_inverse (r : Robot) (poses : DataFrame)
    (axis_configuration : Option (Fin 4 → ℤ)) : Except String DataFrame := do
  let x ← extract_column_f64 poses "X"
  let y ← extract_column_f64 poses "Y"
  let z ← extract_column_f64 poses "Z"
  let a ← extract_column_f64 poses "A"
  let b ← extract_column_f64 poses "B"
  let c ← extract_column_f64 poses "C"
  let d ← extract_column_f64 poses "D"
  let rows : List (Option Joints) := (List.range poses.height).map
    (fun i => r.inverse_row axis_configuration (inverse_input_row x y z a b c d i))
  Except.ok
    { cols :=
        [("J1", Column.floats (rows.map (fun s => s.map (fun j => j 0)))),
         ("J2", Column.floats (rows.map (fun s => s.map (fun j => j 1)))),
         ("J3", Column.floats (rows.map (fun s => s.map (fun j => j 2)))),
         ("J4", Column.floats (rows.map (fun s => s.map (fun j => j 3)))),
         ("J5", Column.floats (rows.map (fun s => s.map (fun j => j 4)))),
         ("J6", Column.floats (rows.map (fun s => s.map (fun j => j 5))))]
      height := poses.height }

/-- One row of `Robot::batch_forward`: when all six joint cells are present,
run `forward`; otherwise the row is null. -/
def Robot.forward_row (r : Robot) (cells : Fin 6 → Option ℚ) :
    Option (Vec3 × (Fin 4 → ℚ)) :=
  match cells 0, cells 1, cells 2, cells 3, cells 4, cells 5 with
  | some j1, some j2, some j3, some j4, some j5, some j6 =>
    some (r.forward ![j1, j2, j3, j4, j5, j6])
  | _, _, _, _, _, _ => none

/-- The six extracted cells of row `i` of a `batch_forward` input, in the
column order J1 .. J6. -/
def forward_input_row (j1 j2 j3 j4 j5 j6 : List (Option ℚ)) (i : ℕ) : Fin 6 → Option ℚ :=
  ![chunkedGet j1 i, chunkedGet j2 i, chunkedGet j3 i, chunkedGet j4 i,
    chunkedGet j5 i, chunkedGet j6 i]

/-- src/lib.rs `Robot::batch_forward`: extract the six required joint columns
(any failure aborts the whole call), then process each row independently with
`forward_row` and emit the seven pose columns; one output row per input row. -/
def Robot.batch_forward (r : Robot) (joints : DataFrame) : Except String DataFrame := do
  let j1 ← extract_column_f64 joints "J1"
  let j2 ← extract_column_f64 joints "J2"
  let j3 ← extract_column_f64 joints "J3"
  let j4 ← extract_column_f64 joints "J4"
  let j5 ← extract_column_f64 joints "J5"
  let j6 ← extract_column_f64 joints "J6"
  let rows : List (Option (Vec3 × (Fin 4 → ℚ))) := (List.range joints.height).map
    (fun i => r.forward_row (forward_input_row j1 j2 j3 j4 j5 j6 i))
  Except.ok
    { cols :=
        [("X", Column.floats (rows.map (fun s => s.map (fun p => p.1 0)))),
         ("Y", Column.floats (rows.map (fun s => s.map (fun p => p.1 1)))),
         ("Z", Column.floats (rows.map (fun s => s.map (fun p => p.1 2)))),
         ("A", Column.floats (rows.map (fun s => s.map (fun p => p.2 0)))),
         ("B", Column.floats (rows.map (fun s => s.map (fun p => p.2 1)))),
         ("C", Column.floats (rows.map (fun s => s.map (fun p => p.2 2)))),
         ("D", Column.floats (rows.map (fun s => s.map (fun p => p.2 3))))]
      height := joints.height }

/-- A concrete identity-like isometry for building sample collaborators. -/
def trivialIso : Iso := ⟨![0, 0, 0], ⟨⟨1, 0, 0, 0⟩⟩⟩

/-- A sample collaborator whose inverse enumerates no candidates. -/
def noSolKin : Kinematics :=
  { forward := fun _ => trivialIso
    inverse_continuing := fun _ _ => []
    kinematic_singularity := fun _ => none }

/-- A sample collaborator whose forward pose rotation is the unit quaternion
with w = 0, x = 1, y = 0, z = 0 -- its four components are pairwise
distinguishable between the storage order and the scalar-first order. -/
def xKin : Kinematics :=
  { forward := fun _ => ⟨![0, 0, 0], ⟨⟨0, 1, 0, 0⟩⟩⟩
    inverse_continuing := fun _ _ => []
    kinematic_singularity := fun _ => none }

/-- A sample joint vector (degrees). -/
def cJoints : Joints := ![10, 20, 30, 40, 50, 60]

/-- A sample collaborator that always returns the radian image of `cJoints`
as its single unflagged inverse candidate. -/
def echoKin : Kinematics :=
  { forward := fun _ => trivialIso
    inverse_continuing := fun _ _ => [fun i => to_radians (cJoints i)]
    kinematic_singularity := fun _ => none }

/-- A sample collaborator enumerating one flagged and one clean candidate. -/
def mixKin : Kinematics :=
  { forward := fun _ => trivialIso
    inverse_continuing := fun _ _ => [fun _ => 0, fun _ => 1]
    kinematic_singularity := fun j => if j 0 = 0 then some () else none }

/-- A sample collaborator flagging every candidate as singular. -/
def allSingKin : Kinematics :=
  { forward := fun _ => trivialIso
    inverse_continuing := fun _ _ => [fun _ => 1, fun _ => 2]
    kinematic_singularity := fun _ => some () }

/-- A sample base configuration (identity rotation). -/
def cBase : BaseConfig := ⟨![0, 0, 0], ![1, 0, 0, 0]⟩

/-- A sample tool configuration (identity rotation). -/
def cTool : ToolConfig := ⟨![0, 0, 0], ![1, 0, 0, 0]⟩

/-- A sample kinematic model (all-zero geometry, identity corrections). -/
def cModel : KinematicModel := ⟨0, 0, 0, 0, 0, 0, 0, fun _ => 0, fun _ => 1⟩

/-- A robot mounted on the sample configs around a given collaborator. -/
def mkToyRobot (k : Kinematics) : Robot :=
  { base_config := cBase
    tool_config := cTool
    tool := k
    base_iso := base_iso_of cBase
    tool_iso := tool_iso_of cTool
    kinematic_model := cModel }

/-- A sample solver crate whose construction always succeeds. -/
def okSolver : SolverImpl :=
  { construct := fun _ => Except.ok noSolKin
    wrapBase := fun k _ => k
    wrapTool := fun k _ => k }

/-- A sample solver crate whose construction always reports invalid geometry. -/
def errSolver : SolverImpl :=
  { construct := fun _ => Except.error "invalid geometry"
    wrapBase := fun k _ => k
    wrapTool := fun k _ => k }

/-- A sample two-row pose table: row 0 complete, row 1 with a null cell. -/
def toyDf : DataFrame :=
  { cols :=
      [("X", Column.floats [some 1, none]),
       ("Y", Column.floats [some 1, some 1]),
       ("Z", Column.floats [some 1, some 1]),
       ("A", Column.floats [some 1, some 1]),
       ("B", Column.floats [some 1, some 1]),
       ("C", Column.floats [some 1, some 1]),
       ("D", Column.floats [some 1, some 1])]
    height := 2 }

/-- The all-null six-joint output table `batch_inverse` produces on `toyDf`
with the no-solution collaborator. -/
def nullOut : DataFrame :=
  { cols :=
      [("J1", Column.floats [none, none]),
       ("J2", Column.floats [none, none]),
       ("J3", Column.floats [none, none]),
       ("J4", Column.floats [none, none]),
       ("J5", Column.floats [none, none]),
       ("J6", Column.floats [none, none])]
    height := 2 }

/-- A sample one-row joint table whose only row has a null cell. -/
def toyDfF : DataFrame :=
  { cols :=
      [("J1", Column.floats [none]),
       ("J2", Column.floats [some 1]),
       ("J3", Column.floats [some 1]),
       ("J4", Column.floats [some 1]),
       ("J5", Column.floats [some 1]),
       ("J6", Column.floats [some 1])]
    height := 1 }

/-- The all-null seven-column output `batch_forward` produces on `toyDfF`. -/
def nullOutF : DataFrame :=
  { cols :=
      [("X", Column.floats [none]),
       ("Y", Column.floats [none]),
       ("Z", Column.floats [none]),
       ("A", Column.floats [none]),
       ("B", Column.floats [none]),
       ("C", Column.floats [none]),
       ("D", Column.floats [none])]
    height := 1 }

/-- A sample pose table whose required column Y cannot be cast to floats. -/
def badDf : DataFrame :=
  { cols :=
      [("X", Column.floats [some 1]),
       ("Y", Column.nonNumeric),
       ("Z", Column.floats [some 1])]
    height := 1 }

/-- A sample joint table missing the required column J3. -/
def badDfF : DataFrame :=
  { cols :=
      [("J1", Column.floats [some 1]),
       ("J2", Column.floats [some 1])]
    height := 1 }

/-- The cfx posture code as the spec words it: the sum of the bit weights
+1 if joint 4 is negative, +2 if joint 2 is below -90, +4 if joint 1 is
negative. -/
def cfxSpec (joints : Joints) : ℤ :=
  (if joints 4 < 0 then 1 else 0) + (if joints 2 < -90 then 2 else 0) +
    (if joints 1 < 0 then 4 else 0)

/-- The joint column names J1 .. J6 of a batch output, in order. -/
def jointColName : Fin 6 → String := !["J1", "J2", "J3", "J4", "J5", "J6"]

/-- The pose column names X, Y, Z, A, B, C, D of a batch output, in order. -/
def poseColName : Fin 7 → String := !["X", "Y", "Z", "A", "B", "C", "D"]

/-- The seven emitted cells of one forward pose, in the column order
X, Y, Z, A, B, C, D (translation then quaternion). -/
def poseColVal (p : Vec3 × (Fin 4 → ℚ)) : Fin 7 → ℚ :=
  ![p.1 0, p.1 1, p.1 2, p.2 0, p.2 1, p.2 2, p.2 3]

/-- A string names a column when the column name occurs in it verbatim. -/
def mentions (e name : String) : Prop := ∃ pre post, e = pre ++ name ++ post

/-- The Boolean-key comparison `Robot::inverse` sorts with: ascending in the
key `!score`, i.e. `le a b` iff `a.1 || !b.1`. -/
def scoreLe {α : Type} (a b : Bool × α) : Bool := a.1 || !b.1

/-- Filtering a list zipped with its own mapped markers and projecting is the
same as filtering by the marker and mapping. -/
theorem zip_map_filter_map {α β : Type} (f : α → Option Unit) (g : α → β) (l : List α) :
    ((l.zip (l.map f)).filter (fun p => p.2.isNone)).map (fun p => g p.1)
      = (l.filter (fun x => (f x).isNone)).map g := by
  induction l with
  | nil => rfl
  | cons a t ih =>
    simp only [List.map_cons, List.zip_cons_cons, List.filter_cons]
    by_cases h : (f a).isNone
    · simp [h, ih]
    · simp [h, ih]

/-- The singularity filter of `Robot::inverse`, restated: the zip-and-filter
pass keeps exactly the candidates the solver does not flag, in order,
converted to degrees. -/
theorem surviving_eq (r : Robot) (pose : Vec3 × (Fin 4 → ℚ))
    (current_joints : Option Joints) :
    r.surviving pose current_joints
      = ((r.raw_solutions pose current_joints).filter
          (fun x => (r.tool.kinematic_singularity x).isNone)).map r.convert_to_degrees := by
  unfold Robot.surviving
  exact zip_map_filter_map _ _ _

theorem scoreLe_trans {α : Type} (a b c : Bool × α)
    (h1 : scoreLe a b = true) (h2 : scoreLe b c = true) : scoreLe a c = true := by
  cases a with
  | mk a1 a2 =>
  cases b with
  | mk b1 b2 =>
  cases c with
  | mk c1 c2 =>
  simp only [scoreLe] at h1 h2 ⊢
  cases a1 <;> cases b1 <;> cases c1 <;> simp_all

theorem scoreLe_total {α : Type} (a b : Bool × α) :
    (scoreLe a b || scoreLe b a) = true := by
  cases a with
  | mk a1 a2 =>
  cases b with
  | mk b1 b2 =>
  simp only [scoreLe]
  cases a1 <;> cases b1 <;> simp

/-- A stable sort on a Boolean score key, descending in the score, is exactly
the stable two-bucket partition: all `true`-scored elements first, then all
`false`-scored ones, each group in original order. -/
theorem mergeSort_scoreLe_eq_partition {α : Type} (l : List (Bool × α)) :
    l.mergeSort (fun a b => a.1 || !b.1)
      = l.filter (fun p => p.1) ++ l.filter (fun p => !p.1) := by
  have hle : ∀ m : List (Bool × α),
      m.mergeSort (fun a b => a.1 || !b.1) = m.mergeSort scoreLe := by
    intro m
    rfl
  induction l with
  | nil => simp
  | cons a t ih =>
    obtain ⟨l₁, l₂, h1, h2, h3⟩ := List.mergeSort_cons scoreLe_trans scoreLe_total a t
    rw [hle] at ih ⊢
    rw [h1]
    by_cases ha : a.1 = true
    · have hl₁ : l₁ = [] := by
        cases l₁ with
        | nil => rfl
        | cons b t₁ =>
          have hb := h3 b (by simp)
          simp [scoreLe, ha] at hb
      subst hl₁
      simp only [List.nil_append] at h2 ⊢
      rw [← h2, ih, List.filter_cons, List.filter_cons, ha]
      simp
    · have ha2 : a.1 = false := by simp_all
      have hl₁true : ∀ b ∈ l₁, b.1 = true := by
        intro b hb
        have := h3 b hb
        simp [scoreLe, ha2] at this
        exact this
      have hsorted := List.sorted_mergeSort scoreLe_trans scoreLe_total (a :: t)
      rw [h1] at hsorted
      have hl₂false : ∀ b ∈ l₂, b.1 = false := by
        intro b hb
        have hpair := (List.pairwise_append.mp hsorted).2.1
        have := (List.pairwise_cons.mp hpair).1 b hb
        simp [scoreLe, ha2] at this
        exact this
      have hsplit : l₁ ++ l₂ = t.filter (fun p => p.1) ++ t.filter (fun p => !p.1) := by
        rw [← h2, ih]
      have hlen : l₁.length = (t.filter (fun p => p.1)).length := by
        have c1 : (l₁ ++ l₂).countP (fun p => p.1) = l₁.length := by
          rw [List.countP_append]
          rw [List.countP_eq_length.mpr (by intro b hb; simp [hl₁true b hb])]
          rw [List.countP_eq_zero.mpr (by intro b hb; simp [hl₂false b hb])]
          omega
        have c2 : (t.filter (fun p => p.1) ++ t.filter (fun p => !p.1)).countP
            (fun p => p.1) = (t.filter (fun p => p.1)).length := by
          rw [List.countP_append]
          rw [List.countP_eq_length.mpr (by intro b hb; simp [List.mem_filter.mp hb])]
          rw [List.countP_eq_zero.mpr (by
            intro b hb
            have := (List.mem_filter.mp hb).2
            simp_all)]
          omega
        rw [hsplit] at c1
        exact c1.symm.trans c2
      obtain ⟨he1, he2⟩ := List.append_inj hsplit hlen
      rw [he1, he2, List.filter_cons, List.filter_cons, ha2]
      simp

/-- In this exact model, converting to radians and back to degrees is the
identity. -/
theorem to_degrees_to_radians (x : ℚ) : to_degrees (to_radians x) = x := by
  have hpi : piQ ≠ 0 := by norm_num [piQ]
  field_simp [to_degrees, to_radians]

/-- Mapping a list into score-value pairs, filtering on a function of the
score and projecting back is filtering on that function of the score. -/
theorem map_pair_filter {α : Type} (p : α → Bool) (q : Bool → Bool) (m : List α) :
    ((m.map (fun s => (p s, s))).filter (fun t => q t.1)).map (fun t => t.2)
      = m.filter (fun s => q (p s)) := by
  induction m with
  | nil => rfl
  | cons a t ih =>
    by_cases h : q (p a) = true <;> simp [List.filter_cons, h, ih]

/-- `Robot::inverse` with a desired configuration returns the surviving
solutions with all cfx-matching ones first, then the rest, each group in the
solver's enumeration order; with no desired configuration it returns the
surviving solutions unchanged. -/
theorem inverse_eq_partition (r : Robot) (pose : Vec3 × (Fin 4 → ℚ))
    (current_joints : Option Joints) (target : Fin 4 → ℤ) :
    r.inverse pose current_joints (some target)
      = (r.surviving pose current_joints).filter
          (fun sol => decide ((r.axis_configuration sol) 3 = target 3))
        ++ (r.surviving pose current_joints).filter
          (fun sol => !decide ((r.axis_configuration sol) 3 = target 3)) := by
  unfold Robot.inverse
  simp only
  rw [mergeSort_scoreLe_eq_partition, List.map_append]
  rw [map_pair_filter (fun sol => decide ((r.axis_configuration sol) 3 = target 3)) (fun b => b)]
  rw [map_pair_filter (fun sol => decide ((r.axis_configuration sol) 3 = target 3)) (fun b => !b)]

/-- C1, counterexample: on a concrete robot whose solver pose rotation is the
unit quaternion with w = 0, x = 1, y = 0, z = 0, `Robot.forward` does not emit
the storage-ordered `[x, y, z, w]` array the claim asserts; it emits
`[0, 1, 0, 0]`, the scalar-first `[w, x, y, z]` array. -/
theorem C1_counterexample :
    ((mkToyRobot xKin).forward cJoints).2
        ≠ ((mkToyRobot xKin).tool.forward
            (fun i => to_radians (cJoints i))).rotation.q.coords
    ∧ ((mkToyRobot xKin).forward cJoints).2 = ![0, 1, 0, 0] := by
  constructor
  · intro h
    have h0 := congrFun h 0
    simp [Robot.forward, mkToyRobot, xKin, Quat.coords] at h0
  · funext i
    fin_cases i <;> rfl

/-- C1 (amended): for every 6-joint input, `Robot.forward` returns its
orientation quaternion ordered `[w, x, y, z]` (it reads the `[x, y, z, w]`
storage starting at the scalar index), and `Robot.inverse` also interprets its
input quaternion as ordered `[w, x, y, z]`; the two boundaries use the same
single convention, not two distinct ones. -/
theorem C1_amended (r : Robot) (joints : Joints) (p : Vec3 × (Fin 4 → ℚ)) :
    ((r.forward joints).2
        = ![(r.tool.forward (fun i => to_radians (joints i))).rotation.q.w,
            (r.tool.forward (fun i => to_radians (joints i))).rotation.q.x,
            (r.tool.forward (fun i => to_radians (joints i))).rotation.q.y,
            (r.tool.forward (fun i => to_radians (joints i))).rotation.q.z])
    ∧ (Robot.input_iso p).rotation
        = UnitQuaternion.from_quaternion
            (Quat.new (p.2 0) (p.2 1) (p.2 2) (p.2 3)) := by
  constructor
  · funext i
    fin_cases i <;> rfl
  · rfl

/-- C2, counterexample: `quadrant` is the floor of the division saturated to
the `i32` range (the Rust float-to-int `as`-cast saturates), so at the joint
value 90 * 2^31 degrees the first field of `axis_configuration` is
2^31 - 1, not the claimed floor 2^31. -/
theorem C2_counterexample :
    (mkToyRobot noSolKin).axis_configuration ![90 * 2147483648, 0, 0, 0, 0, 0] 0
      ≠ ⌊(90 * 2147483648 : ℚ) / 90⌋ := by
  have h1 : (mkToyRobot noSolKin).axis_configuration ![90 * 2147483648, 0, 0, 0, 0, 0] 0
      = quadrant (90 * 2147483648) := rfl
  rw [h1]
  norm_num [quadrant, satI32]

/-- C2 (amended): `axis_configuration` is `[quadrant j0, quadrant j3,
quadrant j5, cfx]` with the spec's cfx bit weights and cfx in [0, 7], where
`quadrant a` is `floor (a / 90)` saturated to the `i32` range; the saturation
is invisible for every joint value of magnitude below 90 * 2^31 degrees,
where `quadrant a = floor (a / 90)` exactly (floor toward minus infinity). -/
theorem C2_amended (r : Robot) (joints : Joints) :
    r.axis_configuration joints
        = ![quadrant (joints 0), quadrant (joints 3), quadrant (joints 5), cfxSpec joints]
    ∧ 0 ≤ cfxSpec joints ∧ cfxSpec joints ≤ 7
    ∧ ∀ a : ℚ, -(90 * 2147483648) ≤ a → a < 90 * 2147483648 →
        quadrant a = ⌊a / 90⌋ := by
  refine ⟨rfl, ?_, ?_, ?_⟩
  · unfold cfxSpec
    split_ifs <;> norm_num
  · unfold cfxSpec
    split_ifs <;> norm_num
  · intro a ha1 ha2
    unfold quadrant satI32
    have hlow : (-2147483648 : ℤ) ≤ ⌊a / 90⌋ := by
      rw [Int.le_floor]
      rw [le_div_iff₀ (by norm_num : (0 : ℚ) < 90)]
      push_cast
      linarith
    have hhigh : ⌊a / 90⌋ < 2147483648 := by
      rw [Int.floor_lt]
      rw [div_lt_iff₀ (by norm_num : (0 : ℚ) < 90)]
      push_cast
      linarith
    omega

/-- Witness for C2: the amended theorem evaluated at the spec's sample joint
vector gives the documented posture code [-2, -1, 2, 5], and in the
non-saturating range the quadrant is the exact floor, e.g. at -130. -/
theorem C2_amended_witness :
    (mkToyRobot noSolKin).axis_configuration ![-103.1, -85.03, 19.06, -70.19, -35.87, 185.01]
        = ![-2, -1, 2, 5]
    ∧ quadrant (-130) = ⌊(-130 : ℚ) / 90⌋ := by
  have h := C2_amended (mkToyRobot noSolKin)
    ![-103.1, -85.03, 19.06, -70.19, -35.87, 185.01]
  refine ⟨?_, h.2.2.2 (-130) (by norm_num) (by norm_num)⟩
  rw [h.1]
  funext i
  fin_cases i
  · show quadrant (-103.1 : ℚ) = -2
    norm_num [quadrant, satI32]
  · show quadrant (-70.19 : ℚ) = -1
    norm_num [quadrant, satI32]
  · show quadrant (185.01 : ℚ) = 2
    norm_num [quadrant, satI32]
  · show cfxSpec (![-103.1, -85.03, 19.06, -70.19, -35.87, 185.01] : Joints) = 5
    have e1 : (![-103.1, -85.03, 19.06, -70.19, -35.87, 185.01] : Joints) 1 = -85.03 := rfl
    have e2 : (![-103.1, -85.03, 19.06, -70.19, -35.87, 185.01] : Joints) 2 = 19.06 := rfl
    have e4 : (![-103.1, -85.03, 19.06, -70.19, -35.87, 185.01] : Joints) 4 = -35.87 := rfl
    unfold cfxSpec
    rw [e1, e2, e4]
    norm_num

/-- C3: for every robot, pose, seed and desired configuration, every joint
vector `Robot.inverse` returns is the degree image of an unflagged solver
candidate (flagged candidates are dropped before degree conversion), and when
the solver flags every candidate the returned list is legitimately empty. -/
theorem C3_no_singular (r : Robot) (pose : Vec3 × (Fin 4 → ℚ))
    (current_joints : Option Joints) (cfg : Option (Fin 4 → ℤ)) :
    (∀ s ∈ r.inverse pose current_joints cfg,
        ∃ x ∈ r.raw_solutions pose current_joints,
          r.tool.kinematic_singularity x = none ∧ s = r.convert_to_degrees x)
    ∧ ((∀ x ∈ r.raw_solutions pose current_joints,
          (r.tool.kinematic_singularity x).isSome) →
        r.inverse pose current_joints cfg = []) := by
  have hsubset : ∀ s ∈ r.inverse pose current_joints cfg,
      s ∈ r.surviving pose current_joints := by
    intro s hs
    cases cfg with
    | none => exact hs
    | some target =>
      rw [inverse_eq_partition] at hs
      rcases List.mem_append.mp hs with h | h
      · exact List.mem_of_mem_filter h
      · exact List.mem_of_mem_filter h
  constructor
  · intro s hs
    have h2 := hsubset s hs
    rw [surviving_eq] at h2
    rcases List.mem_map.mp h2 with ⟨x, hx, hxe⟩
    have hxf := List.mem_filter.mp hx
    refine ⟨x, hxf.1, ?_, hxe.symm⟩
    cases hsing : r.tool.kinematic_singularity x with
    | none => rfl
    | some u =>
      have := hxf.2
      rw [hsing] at this
      simp at this
  · intro hall
    have hempty : r.surviving pose current_joints = [] := by
      rw [surviving_eq]
      have : (r.raw_solutions pose current_joints).filter
          (fun x => (r.tool.kinematic_singularity x).isNone) = [] := by
        rw [List.filter_eq_nil_iff]
        intro x hx
        have h := hall x hx
        simp only [Option.isSome_iff_ne_none] at h
        simp [h]
      rw [this]
      rfl
    cases cfg with
    | none => exact hempty
    | some target =>
      rw [inverse_eq_partition, hempty]
      rfl

/-- Witness for C3: on a collaborator enumerating one flagged and one clean
candidate, the returned solution is the degree image of the clean candidate;
on a collaborator flagging everything, the result is empty. -/
theorem C3_no_singular_witness :
    (∃ x ∈ (mkToyRobot mixKin).raw_solutions (![0, 0, 0], ![1, 0, 0, 0]) none,
        (mkToyRobot mixKin).tool.kinematic_singularity x = none
          ∧ (mkToyRobot mixKin).convert_to_degrees (fun _ => (1 : ℚ))
              = (mkToyRobot mixKin).convert_to_degrees x)
    ∧ (mkToyRobot allSingKin).inverse (![0, 0, 0], ![1, 0, 0, 0]) none none = [] := by
  constructor
  · refine (C3_no_singular (mkToyRobot mixKin) (![0, 0, 0], ![1, 0, 0, 0]) none none).1
      ((mkToyRobot mixKin).convert_to_degrees (fun _ => (1 : ℚ))) ?_
    have hsurv : (mkToyRobot mixKin).inverse (![0, 0, 0], ![1, 0, 0, 0]) none none
        = [(mkToyRobot mixKin).convert_to_degrees (fun _ => (1 : ℚ))] := rfl
    rw [hsurv]
    simp
  · exact (C3_no_singular (mkToyRobot allSingKin) (![0, 0, 0], ![1, 0, 0, 0]) none none).2
      (fun x _ => rfl)

/-- C4: with a desired configuration, `Robot.inverse` returns exactly the
surviving solutions whose own cfx (field 3 only) matches the target's cfx,
in the solver's enumeration order, followed by the non-matching ones, in the
solver's enumeration order (the stable sort on the Boolean score is the stable
two-bucket partition); with no desired configuration the surviving solutions
are returned unreordered. -/
theorem C4_ranking (r : Robot) (pose : Vec3 × (Fin 4 → ℚ))
    (current_joints : Option Joints) (target : Fin 4 → ℤ) :
    r.inverse pose current_joints (some target)
        = (r.surviving pose current_joints).filter
            (fun sol => decide ((r.axis_configuration sol) 3 = target 3))
          ++ (r.surviving pose current_joints).filter
            (fun sol => !decide ((r.axis_configuration sol) 3 = target 3))
    ∧ r.inverse pose current_joints none = r.surviving pose current_joints :=
  ⟨inverse_eq_partition r pose current_joints target, rfl⟩

/-- C7: whenever no caller seed is supplied, the seed `Robot.inverse` hands
the solver is the canonical centered constant `CONSTRAINT_CENTERED` (radians),
and every `batch_inverse` row invokes `inverse` with no seed (never a prior
row's result), so batch rows use the same constant. -/
theorem C7_default_seed (r : Robot) (pose : Vec3 × (Fin 4 → ℚ))
    (cfg : Option (Fin 4 → ℤ)) :
    Robot.seed none = CONSTRAINT_CENTERED
    ∧ r.raw_solutions pose none
        = r.tool.inverse_continuing (Robot.input_iso pose) CONSTRAINT_CENTERED
    ∧ ∀ x y z a b c d : ℚ,
        r.inverse_row cfg ![some x, some y, some z, some a, some b, some c, some d]
          = (r.inverse (![x, y, z], ![a, b, c, d]) none cfg).head? :=
  ⟨rfl, rfl, fun _ _ _ _ _ _ _ => rfl⟩

/-- C8: invalid geometry is a construction-time failure: `Robot.new` returns
the solver's construction error unchanged and produces no robot, and on
success it returns the fully assembled robot; the call-time operations
`Robot.forward` and `Robot.inverse` are total functions of the embedding
(their types have no error channel), so a successfully constructed robot
never raises a geometry error at call time. -/
theorem C8_construction (S : SolverImpl) (km : KinematicModel)
    (bc : BaseConfig) (tc : ToolConfig) :
    (∀ e, S.construct km = Except.error e → Robot.new S km bc tc = Except.error e)
    ∧ (∀ k, S.construct km = Except.ok k →
        Robot.new S km bc tc = Except.ok
          { base_config := bc
            tool_config := tc
            tool := S.wrapTool (S.wrapBase k (base_iso_of bc)) (tool_iso_of tc)
            base_iso := base_iso_of bc
            tool_iso := tool_iso_of tc
            kinematic_model := km }) := by
  constructor
  · intro e he
    unfold Robot.new
    rw [he]
  · intro k hk
    unfold Robot.new
    rw [hk]

/-- Witness for C8: a failing solver construction aborts `Robot.new` with the
same error and no robot; a succeeding one yields the assembled robot. -/
theorem C8_construction_witness :
    Robot.new errSolver cModel cBase cTool = Except.error "invalid geometry"
    ∧ Robot.new okSolver cModel cBase cTool = Except.ok (mkToyRobot noSolKin) := by
  constructor
  · exact (C8_construction errSolver cModel cBase cTool).1 "invalid geometry" rfl
  · exact (C8_construction okSolver cModel cBase cTool).2 noSolKin rfl

/-- C9: the wrapper preserves the round-trip property: if on the pose
`forward J` the solver enumerates an unflagged candidate whose degree image
is within 1e-6 of `J` componentwise up to 360-degree periodicity, then
`inverse (forward J)` (no seed, no desired configuration) returns a candidate
within 1e-6 of `J` componentwise up to periodicity. -/
theorem C9_round_trip (r : Robot) (J x : Joints) (k : Fin 6 → ℤ)
    (hmem : x ∈ r.raw_solutions (r.forward J) none)
    (hsing : r.tool.kinematic_singularity x = none)
    (hclose : ∀ i, |to_degrees (x i) - (J i + 360 * ((k i : ℤ) : ℚ))| ≤ 1 / 1000000) :
    ∃ s ∈ r.inverse (r.forward J) none none,
      ∀ i, ∃ m : ℤ, |s i - (J i + 360 * ((m : ℤ) : ℚ))| ≤ 1 / 1000000 := by
  refine ⟨r.convert_to_degrees x, ?_, fun i => ⟨k i, hclose i⟩⟩
  show r.convert_to_degrees x ∈ r.surviving (r.forward J) none
  rw [surviving_eq]
  refine List.mem_map_of_mem _ (List.mem_filter.mpr ⟨hmem, ?_⟩)
  rw [hsing]
  rfl

/-- Witness for C9: on a collaborator echoing back the radian image of the
sample joint vector, the round trip recovers the joints exactly. -/
theorem C9_round_trip_witness :
    ∃ s ∈ (mkToyRobot echoKin).inverse ((mkToyRobot echoKin).forward cJoints) none none,
      ∀ i, ∃ m : ℤ, |s i - (cJoints i + 360 * ((m : ℤ) : ℚ))| ≤ 1 / 1000000 := by
  refine C9_round_trip (mkToyRobot echoKin) cJoints
    (fun i => to_radians (cJoints i)) (fun _ => 0) ?_ rfl ?_
  · show (fun i => to_radians (cJoints i)) ∈ [fun i => to_radians (cJoints i)]
    simp
  · intro i
    rw [to_degrees_to_radians]
    push_cast
    simp

/-- The normalized rotation action preserves the squared Euclidean norm: the
carried rotation is that of a unit quaternion, whatever the input norm. -/
theorem rotate_norm (u : UnitQuat) (v : Vec3) (h : u.q.normSq ≠ 0) :
    norm3Sq (u.rotate v) = norm3Sq v := by
  obtain ⟨⟨w, x, y, z⟩⟩ := u
  have hn : w ^ 2 + x ^ 2 + y ^ 2 + z ^ 2 ≠ 0 := h
  simp only [UnitQuat.rotate, Quat.mul, Quat.new, Quat.conj, Quat.normSq, norm3Sq,
    Matrix.cons_val_zero, Matrix.cons_val_one, Matrix.head_cons, Matrix.cons_val_two,
    Matrix.tail_cons]
  field_simp
  ring

/-- Componentwise equality of explicit 3-vectors. -/
theorem vec3_ext {A1 A2 A3 B1 B2 B3 : ℚ} (h1 : A1 = B1) (h2 : A2 = B2) (h3 : A3 = B3) :
    (![A1, A2, A3] : Vec3) = ![B1, B2, B3] := by
  rw [h1, h2, h3]

/-- Scaling the raw quaternion by a nonzero factor does not change the
normalized rotation action: normalization makes any-norm input equivalent. -/
theorem rotate_scale (lam : ℚ) (q : Quat) (v : Vec3) (hlam : lam ≠ 0)
    (hn : q.normSq ≠ 0) :
    (UnitQuaternion.from_quaternion (Quat.scale lam q)).rotate v
      = (UnitQuaternion.from_quaternion q).rotate v := by
  obtain ⟨w, x, y, z⟩ := q
  have hn2 : w ^ 2 + x ^ 2 + y ^ 2 + z ^ 2 ≠ 0 := hn
  have hc : (lam * w) ^ 2 + (lam * x) ^ 2 + (lam * y) ^ 2 + (lam * z) ^ 2 ≠ 0 := by
    intro h0
    apply hn2
    have hl2 : lam ^ 2 ≠ 0 := pow_ne_zero 2 hlam
    have h1 : lam ^ 2 * (w ^ 2 + x ^ 2 + y ^ 2 + z ^ 2) = 0 := by linear_combination h0
    rcases mul_eq_zero.mp h1 with h2 | h2
    · exact absurd h2 hl2
    · exact h2
  simp only [UnitQuaternion.from_quaternion, UnitQuat.rotate, Quat.scale, Quat.mul,
    Quat.new, Quat.conj, Quat.normSq]
  refine vec3_ext ?_ ?_ ?_ <;>
    (rw [div_eq_div_iff hc hn2]
     ring)

/-- C10: `Robot.new` accepts base and tool rotation quaternions of any norm
(construction success depends only on the solver construction, never on the
rotation values), and the four components are passed through
`UnitQuaternion::from_quaternion`, whose normalization makes the internally
stored base and tool rotations act as unit-norm rotations: their action
preserves the squared Euclidean norm, and scaling the caller's quaternion by
any nonzero factor leaves the stored rotation's action unchanged. -/
theorem C10_normalized (S : SolverImpl) (km : KinematicModel) (bc : BaseConfig)
    (tc : ToolConfig) (rb : Robot) (hrb : Robot.new S km bc tc = Except.ok rb) :
    rb.base_iso.rotation = UnitQuaternion.from_quaternion
        (Quat.new (bc.rotation 0) (bc.rotation 1) (bc.rotation 2) (bc.rotation 3))
    ∧ rb.tool_iso.rotation = UnitQuaternion.from_quaternion
        (Quat.new (tc.rotation 0) (tc.rotation 1) (tc.rotation 2) (tc.rotation 3))
    ∧ (∀ bc2 : BaseConfig, ∀ tc2 : ToolConfig,
        (Robot.new S km bc2 tc2).isOk = (Robot.new S km bc tc).isOk)
    ∧ (∀ v, rb.base_iso.rotation.q.normSq ≠ 0 →
        norm3Sq (rb.base_iso.rotation.rotate v) = norm3Sq v)
    ∧ (∀ v, rb.tool_iso.rotation.q.normSq ≠ 0 →
        norm3Sq (rb.tool_iso.rotation.rotate v) = norm3Sq v)
    ∧ (∀ (lam : ℚ) (q : Quat) (v : Vec3), lam ≠ 0 → q.normSq ≠ 0 →
        (UnitQuaternion.from_quaternion (Quat.scale lam q)).rotate v
          = (UnitQuaternion.from_quaternion q).rotate v) := by
  unfold Robot.new at hrb
  cases hcon : S.construct km with
  | error e =>
    rw [hcon] at hrb
    exact absurd hrb (by simp)
  | ok k =>
    rw [hcon] at hrb
    have hr := Except.ok.inj hrb
    subst hr
    refine ⟨rfl, rfl, ?_, ?_, ?_, ?_⟩
    · intro bc2 tc2
      unfold Robot.new
      rw [hcon]
      rfl
    · intro v hv
      exact rotate_norm _ v hv
    · intro v hv
      exact rotate_norm _ v hv
    · intro lam q v hlam hn
      exact rotate_scale lam q v hlam hn

/-- Witness for C10: the sample robot stores the wrapped base quaternion, and
its base rotation action preserves the squared norm of a concrete vector. -/
theorem C10_normalized_witness :
    (mkToyRobot noSolKin).base_iso.rotation
        = UnitQuaternion.from_quaternion (Quat.new 1 0 0 0)
    ∧ norm3Sq ((mkToyRobot noSolKin).base_iso.rotation.rotate ![1, 2, 3])
        = norm3Sq ![1, 2, 3] := by
  have h := C10_normalized okSolver cModel cBase cTool (mkToyRobot noSolKin) rfl
  refine ⟨h.1, h.2.2.2.1 ![1, 2, 3] ?_⟩
  show ((1 : ℚ) ^ 2 + 0 ^ 2 + 0 ^ 2 + 0 ^ 2) ≠ 0
  norm_num

/-- Monadic bind on a successful extraction continues with the value. -/
theorem exceptBind_ok {α β : Type} (a : α) (f : α → Except String β) :
    (Except.ok a >>= f) = f a := rfl

/-- Monadic bind on a failed extraction aborts with the same error. -/
theorem exceptBind_error {α β : Type} (e : String) (f : α → Except String β) :
    ((Except.error e : Except String α) >>= f) = Except.error e := rfl

/-- An extraction error message always names the offending column. -/
theorem extract_error_mentions (df : DataFrame) (n e : String)
    (h : extract_column_f64 df n = Except.error e) : mentions e n := by
  unfold extract_column_f64 at h
  cases hdf : df.column n with
  | none =>
    rw [hdf] at h
    have he := Except.error.inj h
    exact ⟨"Error extracting column ", ": ColumnNotFound", he.symm⟩
  | some col =>
    cases col with
    | floats cells =>
      rw [hdf] at h
      exact absurd h (by simp)
    | nonNumeric =>
      rw [hdf] at h
      have he := Except.error.inj h
      exact ⟨"Error casting column ", " to f64: InvalidOperation", he.symm⟩

/-- C6: for both batch operations, if any required column (X, Y, Z, A, B, C, D
for `batch_inverse`; J1 .. J6 for `batch_forward`) is missing or cannot be cast
to floats, the whole call returns a hard error whose message names an offending
column, and no table is produced (the error and the table are exclusive
alternatives of the result type). -/
theorem C6_column_hard_error (r : Robot) (df dfF : DataFrame)
    (cfg : Option (Fin 4 → ℤ)) :
    ((∃ name ∈ ["X", "Y", "Z", "A", "B", "C", "D"],
        ∃ e0, extract_column_f64 df name = Except.error e0) →
      ∃ name ∈ ["X", "Y", "Z", "A", "B", "C", "D"], ∃ e,
        r.batch_inverse df cfg = Except.error e
        ∧ extract_column_f64 df name = Except.error e ∧ mentions e name)
    ∧ ((∃ name ∈ ["J1", "J2", "J3", "J4", "J5", "J6"],
        ∃ e0, extract_column_f64 dfF name = Except.error e0) →
      ∃ name ∈ ["J1", "J2", "J3", "J4", "J5", "J6"], ∃ e,
        r.batch_forward dfF = Except.error e
        ∧ extract_column_f64 dfF name = Except.error e ∧ mentions e name) := by
  constructor
  · intro hbad
    cases hx : extract_column_f64 df "X" with
    | error e =>
      refine ⟨"X", by simp, e, ?_, hx, extract_error_mentions df "X" e hx⟩
      simp only [Robot.batch_inverse, hx, exceptBind_error]
    | ok x =>
    cases hy : extract_column_f64 df "Y" with
    | error e =>
      refine ⟨"Y", by simp, e, ?_, hy, extract_error_mentions df "Y" e hy⟩
      simp only [Robot.batch_inverse, hx, hy, exceptBind_ok, exceptBind_error]
    | ok y =>
    cases hz : extract_column_f64 df "Z" with
    | error e =>
      refine ⟨"Z", by simp, e, ?_, hz, extract_error_mentions df "Z" e hz⟩
      simp only [Robot.batch_inverse, hx, hy, hz, exceptBind_ok, exceptBind_error]
    | ok z =>
    cases ha : extract_column_f64 df "A" with
    | error e =>
      refine ⟨"A", by simp, e, ?_, ha, extract_error_mentions df "A" e ha⟩
      simp only [Robot.batch_inverse, hx, hy, hz, ha, exceptBind_ok, exceptBind_error]
    | ok a =>
    cases hb : extract_column_f64 df "B" with
    | error e =>
      refine ⟨"B", by simp, e, ?_, hb, extract_error_mentions df "B" e hb⟩
      simp only [Robot.batch_inverse, hx, hy, hz, ha, hb, exceptBind_ok, exceptBind_error]
    | ok b =>
    cases hc : extract_column_f64 df "C" with
    | error e =>
      refine ⟨"C", by simp, e, ?_, hc, extract_error_mentions df "C" e hc⟩
      simp only [Robot.batch_inverse, hx, hy, hz, ha, hb, hc, exceptBind_ok, exceptBind_error]
    | ok c =>
    cases hd : extract_column_f64 df "D" with
    | error e =>
      refine ⟨"D", by simp, e, ?_, hd, extract_error_mentions df "D" e hd⟩
      simp only [Robot.batch_inverse, hx, hy, hz, ha, hb, hc, hd, exceptBind_ok,
        exceptBind_error]
    | ok d =>
      exfalso
      rcases hbad with ⟨name, hmem, e0, he0⟩
      simp only [List.mem_cons, List.not_mem_nil, or_false] at hmem
      rcases hmem with rfl | rfl | rfl | rfl | rfl | rfl | rfl
      · rw [hx] at he0
        exact absurd he0 (by simp)
      · rw [hy] at he0
        exact absurd he0 (by simp)
      · rw [hz] at he0
        exact absurd he0 (by simp)
      · rw [ha] at he0
        exact absurd he0 (by simp)
      · rw [hb] at he0
        exact absurd he0 (by simp)
      · rw [hc] at he0
        exact absurd he0 (by simp)
      · rw [hd] at he0
        exact absurd he0 (by simp)
  · intro hbad
    cases h1 : extract_column_f64 dfF "J1" with
    | error e =>
      refine ⟨"J1", by simp, e, ?_, h1, extract_error_mentions dfF "J1" e h1⟩
      simp only [Robot.batch_forward, h1, exceptBind_error]
    | ok j1 =>
    cases h2 : extract_column_f64 dfF "J2" with
    | error e =>
      refine ⟨"J2", by simp, e, ?_, h2, extract_error_mentions dfF "J2" e h2⟩
      simp only [Robot.batch_forward, h1, h2, exceptBind_ok, exceptBind_error]
    | ok j2 =>
    cases h3 : extract_column_f64 dfF "J3" with
    | error e =>
      refine ⟨"J3", by simp, e, ?_, h3, extract_error_mentions dfF "J3" e h3⟩
      simp only [Robot.batch_forward, h1, h2, h3, exceptBind_ok, exceptBind_error]
    | ok j3 =>
    cases h4 : extract_column_f64 dfF "J4" with
    | error e =>
      refine ⟨"J4", by simp, e, ?_, h4, extract_error_mentions dfF "J4" e h4⟩
      simp only [Robot.batch_forward, h1, h2, h3, h4, exceptBind_ok, exceptBind_error]
    | ok j4 =>
    cases h5 : extract_column_f64 dfF "J5" with
    | error e =>
      refine ⟨"J5", by simp, e, ?_, h5, extract_error_mentions dfF "J5" e h5⟩
      simp only [Robot.batch_forward, h1, h2, h3, h4, h5, exceptBind_ok, exceptBind_error]
    | ok j5 =>
    cases h6 : extract_column_f64 dfF "J6" with
    | error e =>
      refine ⟨"J6", by simp, e, ?_, h6, extract_error_mentions dfF "J6" e h6⟩
      simp only [Robot.batch_forward, h1, h2, h3, h4, h5, h6, exceptBind_ok,
        exceptBind_error]
    | ok j6 =>
      exfalso
      rcases hbad with ⟨name, hmem, e0, he0⟩
      simp only [List.mem_cons, List.not_mem_nil, or_false] at hmem
      rcases hmem with rfl | rfl | rfl | rfl | rfl | rfl
      · rw [h1] at he0
        exact absurd he0 (by simp)
      · rw [h2] at he0
        exact absurd he0 (by simp)
      · rw [h3] at he0
        exact absurd he0 (by simp)
      · rw [h4] at he0
        exact absurd he0 (by simp)
      · rw [h5] at he0
        exact absurd he0 (by simp)
      · rw [h6] at he0
        exact absurd he0 (by simp)

/-- Witness for C6: a table whose Y column is non-numeric aborts
`batch_inverse` whole, and a table missing J3 aborts `batch_forward` whole,
each with an error naming the column. -/
theorem C6_column_hard_error_witness :
    (∃ name ∈ ["X", "Y", "Z", "A", "B", "C", "D"], ∃ e,
        (mkToyRobot noSolKin).batch_inverse badDf none = Except.error e
        ∧ extract_column_f64 badDf name = Except.error e ∧ mentions e name)
    ∧ (∃ name ∈ ["J1", "J2", "J3", "J4", "J5", "J6"], ∃ e,
        (mkToyRobot noSolKin).batch_forward badDfF = Except.error e
        ∧ extract_column_f64 badDfF name = Except.error e ∧ mentions e name) := by
  have h := C6_column_hard_error (mkToyRobot noSolKin) badDf badDfF none
  exact ⟨h.1 ⟨"Y", by simp, err_cast "Y", rfl⟩, h.2 ⟨"J3", by simp, err_extract "J3", rfl⟩⟩

/-- Indexing a mapped range at an in-range position yields the function value. -/
theorem getD_map_range {β : Type} (n i : ℕ) (h : i < n) (f : ℕ → β) (d : β) :
    ((List.range n).map f).getD i d = f i := by
  rw [List.getD_eq_getElem?_getD, List.getElem?_map, List.getElem?_range h]
  rfl

/-- Reading a mapped range column cell at an in-range row. -/
theorem chunkedGet_map_range (n i : ℕ) (h : i < n) (f : ℕ → Option ℚ) :
    chunkedGet ((List.range n).map f) i = f i :=
  getD_map_range n i h f none

/-- Reading a cell of the frontmost column by its own name. -/
theorem cell_cols_head (nm : String) (cells : List (Option ℚ))
    (rest : List (String × Column)) (ht i : ℕ) :
    DataFrame.cell ⟨(nm, Column.floats cells) :: rest, ht⟩ nm i = chunkedGet cells i := by
  unfold DataFrame.cell DataFrame.column
  rw [List.find?_cons_of_pos _ (by simp)]
  rfl

/-- Reading a cell skips a frontmost column with a different name. -/
theorem cell_cols_tail (nm : String) (cp : String × Column)
    (rest : List (String × Column)) (ht i : ℕ) (hne : (cp.1 == nm) = false) :
    DataFrame.cell ⟨cp :: rest, ht⟩ nm i = DataFrame.cell ⟨rest, ht⟩ nm i := by
  unfold DataFrame.cell DataFrame.column
  rw [List.find?_cons_of_neg _ (by simp [hne])]

/-- C5: both batch operations produce exactly one output row per input row
(the output height and every output column length equal the input height),
and output row `i` is a function of input row `i` alone: its six (seven)
cells are the fields of `inverse_row` (`forward_row`) applied to the cells
extracted from input row `i` — a complete row is mapped through
`inverse`/`forward`, an incomplete or solutionless row yields all-null cells
in that row only, and no row ever aborts the batch. -/
theorem C5_row_semantics (r : Robot) (df dfF : DataFrame) (cfg : Option (Fin 4 → ℤ))
    (out outF : DataFrame) :
    (r.batch_inverse df cfg = Except.ok out →
      out.height = df.height
      ∧ (∀ cp ∈ out.cols, cp.2.length = df.height)
      ∧ ∀ x y z a b c d,
          extract_column_f64 df "X" = Except.ok x →
          extract_column_f64 df "Y" = Except.ok y →
          extract_column_f64 df "Z" = Except.ok z →
          extract_column_f64 df "A" = Except.ok a →
          extract_column_f64 df "B" = Except.ok b →
          extract_column_f64 df "C" = Except.ok c →
          extract_column_f64 df "D" = Except.ok d →
          ∀ i, i < df.height → ∀ k : Fin 6,
            out.cell (jointColName k) i
              = (r.inverse_row cfg (inverse_input_row x y z a b c d i)).map
                  (fun j => j k))
    ∧ (r.batch_forward dfF = Except.ok outF →
      outF.height = dfF.height
      ∧ (∀ cp ∈ outF.cols, cp.2.length = dfF.height)
      ∧ ∀ j1 j2 j3 j4 j5 j6,
          extract_column_f64 dfF "J1" = Except.ok j1 →
          extract_column_f64 dfF "J2" = Except.ok j2 →
          extract_column_f64 dfF "J3" = Except.ok j3 →
          extract_column_f64 dfF "J4" = Except.ok j4 →
          extract_column_f64 dfF "J5" = Except.ok j5 →
          extract_column_f64 dfF "J6" = Except.ok j6 →
          ∀ i, i < dfF.height → ∀ m : Fin 7,
            outF.cell (poseColName m) i
              = (r.forward_row (forward_input_row j1 j2 j3 j4 j5 j6 i)).map
                  (fun p => poseColVal p m)) := by
  constructor
  · intro h
    cases hx : extract_column_f64 df "X" with
    | error e =>
      simp only [Robot.batch_inverse, hx, exceptBind_error] at h
      exact absurd h (by simp)
    | ok x =>
    cases hy : extract_column_f64 df "Y" with
    | error e =>
      simp only [Robot.batch_inverse, hx, hy, exceptBind_ok, exceptBind_error] at h
      exact absurd h (by simp)
    | ok y =>
    cases hz : extract_column_f64 df "Z" with
    | error e =>
      simp only [Robot.batch_inverse, hx, hy, hz, exceptBind_ok, exceptBind_error] at h
      exact absurd h (by simp)
    | ok z =>
    cases ha : extract_column_f64 df "A" with
    | error e =>
      simp only [Robot.batch_inverse, hx, hy, hz, ha, exceptBind_ok, exceptBind_error] at h
      exact absurd h (by simp)
    | ok a =>
    cases hb : extract_column_f64 df "B" with
    | error e =>
      simp only [Robot.batch_inverse, hx, hy, hz, ha, hb, exceptBind_ok,
        exceptBind_error] at h
      exact absurd h (by simp)
    | ok b =>
    cases hc : extract_column_f64 df "C" with
    | error e =>
      simp only [Robot.batch_inverse, hx, hy, hz, ha, hb, hc, exceptBind_ok,
        exceptBind_error] at h
      exact absurd h (by simp)
    | ok c =>
    cases hd : extract_column_f64 df "D" with
    | error e =>
      simp only [Robot.batch_inverse, hx, hy, hz, ha, hb, hc, hd, exceptBind_ok,
        exceptBind_error] at h
      exact absurd h (by simp)
    | ok d =>
      simp only [Robot.batch_inverse, hx, hy, hz, ha, hb, hc, hd, exceptBind_ok] at h
      obtain rfl := Except.ok.inj h
      refine ⟨rfl, ?_, ?_⟩
      · intro cp hcp
        simp only [List.mem_cons, List.not_mem_nil, or_false] at hcp
        rcases hcp with rfl | rfl | rfl | rfl | rfl | rfl <;>
          simp [Column.length]
      · intro x' y' z' a' b' c' d' hx' hy' hz' ha' hb' hc' hd' i hi k
        obtain rfl := Except.ok.inj hx'
        obtain rfl := Except.ok.inj hy'
        obtain rfl := Except.ok.inj hz'
        obtain rfl := Except.ok.inj ha'
        obtain rfl := Except.ok.inj hb'
        obtain rfl := Except.ok.inj hc'
        obtain rfl := Except.ok.inj hd'
        fin_cases k
        · refine (cell_cols_head _ _ _ _ i).trans ?_
          · rw [List.map_map, chunkedGet_map_range df.height i hi]
            rfl
        · refine (cell_cols_tail _ _ _ _ i ?_).trans ((cell_cols_head _ _ _ _ i).trans ?_)
          · rfl
          · rw [List.map_map, chunkedGet_map_range df.height i hi]
            rfl
        · refine (cell_cols_tail _ _ _ _ i ?_).trans ((cell_cols_tail _ _ _ _ i ?_).trans ((cell_cols_head _ _ _ _ i).trans ?_))
          · rfl
          · rfl
          · rw [List.map_map, chunkedGet_map_range df.height i hi]
            rfl
        · refine (cell_cols_tail _ _ _ _ i ?_).trans ((cell_cols_tail _ _ _ _ i ?_).trans ((cell_cols_tail _ _ _ _ i ?_).trans ((cell_cols_head _ _ _ _ i).trans ?_)))
          · rfl
          · rfl
          · rfl
          · rw [List.map_map, chunkedGet_map_range df.height i hi]
            rfl
        · refine (cell_cols_tail _ _ _ _ i ?_).trans ((cell_cols_tail _ _ _ _ i ?_).trans ((cell_cols_tail _ _ _ _ i ?_).trans ((cell_cols_tail _ _ _ _ i ?_).trans ((cell_cols_head _ _ _ _ i).trans ?_))))
          · rfl
          · rfl
          · rfl
          · rfl
          · rw [List.map_map, chunkedGet_map_range df.height i hi]
            rfl
        · refine (cell_cols_tail _ _ _ _ i ?_).trans ((cell_cols_tail _ _ _ _ i ?_).trans ((cell_cols_tail _ _ _ _ i ?_).trans ((cell_cols_tail _ _ _ _ i ?_).trans ((cell_cols_tail _ _ _ _ i ?_).trans ((cell_cols_head _ _ _ _ i).trans ?_)))))
          · rfl
          · rfl
          · rfl
          · rfl
          · rfl
          · rw [List.map_map, chunkedGet_map_range df.height i hi]
            rfl
  · intro h
    cases h1 : extract_column_f64 dfF "J1" with
    | error e =>
      simp only [Robot.batch_forward, h1, exceptBind_error] at h
      exact absurd h (by simp)
    | ok j1 =>
    cases h2 : extract_column_f64 dfF "J2" with
    | error e =>
      simp only [Robot.batch_forward, h1, h2, exceptBind_ok, exceptBind_error] at h
      exact absurd h (by simp)
    | ok j2 =>
    cases h3 : extract_column_f64 dfF "J3" with
    | error e =>
      simp only [Robot.batch_forward, h1, h2, h3, exceptBind_ok, exceptBind_error] at h
      exact absurd h (by simp)
    | ok j3 =>
    cases h4 : extract_column_f64 dfF "J4" with
    | error e =>
      simp only [Robot.batch_forward, h1, h2, h3, h4, exceptBind_ok,
        exceptBind_error] at h
      exact absurd h (by simp)
    | ok j4 =>
    cases h5 : extract_column_f64 dfF "J5" with
    | error e =>
      simp only [Robot.batch_forward, h1, h2, h3, h4, h5, exceptBind_ok,
        exceptBind_error] at h
      exact absurd h (by simp)
    | ok j5 =>
    cases h6 : extract_column_f64 dfF "J6" with
    | error e =>
      simp only [Robot.batch_forward, h1, h2, h3, h4, h5, h6, exceptBind_ok,
        exceptBind_error] at h
      exact absurd h (by simp)
    | ok j6 =>
      simp only [Robot.batch_forward, h1, h2, h3, h4, h5, h6, exceptBind_ok] at h
      obtain rfl := Except.ok.inj h
      refine ⟨rfl, ?_, ?_⟩
      · intro cp hcp
        simp only [List.mem_cons, List.not_mem_nil, or_false] at hcp
        rcases hcp with rfl | rfl | rfl | rfl | rfl | rfl | rfl <;>
          simp [Column.length]
      · intro j1' j2' j3' j4' j5' j6' h1' h2' h3' h4' h5' h6' i hi m
        obtain rfl := Except.ok.inj h1'
        obtain rfl := Except.ok.inj h2'
        obtain rfl := Except.ok.inj h3'
        obtain rfl := Except.ok.inj h4'
        obtain rfl := Except.ok.inj h5'
        obtain rfl := Except.ok.inj h6'
        fin_cases m
        · refine (cell_cols_head _ _ _ _ i).trans ?_
          · rw [List.map_map, chunkedGet_map_range dfF.height i hi]
            rfl
        · refine (cell_cols_tail _ _ _ _ i ?_).trans ((cell_cols_head _ _ _ _ i).trans ?_)
          · rfl
          · rw [List.map_map, chunkedGet_map_range dfF.height i hi]
            rfl
        · refine (cell_cols_tail _ _ _ _ i ?_).trans ((cell_cols_tail _ _ _ _ i ?_).trans ((cell_cols_head _ _ _ _ i).trans ?_))
          · rfl
          · rfl
          · rw [List.map_map, chunkedGet_map_range dfF.height i hi]
            rfl
        · refine (cell_cols_tail _ _ _ _ i ?_).trans ((cell_cols_tail _ _ _ _ i ?_).trans ((cell_cols_tail _ _ _ _ i ?_).trans ((cell_cols_head _ _ _ _ i).trans ?_)))
          · rfl
          · rfl
          · rfl
          · rw [List.map_map, chunkedGet_map_range dfF.height i hi]
            rfl
        · refine (cell_cols_tail _ _ _ _ i ?_).trans ((cell_cols_tail _ _ _ _ i ?_).trans ((cell_cols_tail _ _ _ _ i ?_).trans ((cell_cols_tail _ _ _ _ i ?_).trans ((cell_cols_head _ _ _ _ i).trans ?_))))
          · rfl
          · rfl
          · rfl
          · rfl
          · rw [List.map_map, chunkedGet_map_range dfF.height i hi]
            rfl
        · refine (cell_cols_tail _ _ _ _ i ?_).trans ((cell_cols_tail _ _ _ _ i ?_).trans ((cell_cols_tail _ _ _ _ i ?_).trans ((cell_cols_tail _ _ _ _ i ?_).trans ((cell_cols_tail _ _ _ _ i ?_).trans ((cell_cols_head _ _ _ _ i).trans ?_)))))
          · rfl
          · rfl
          · rfl
          · rfl
          · rfl
          · rw [List.map_map, chunkedGet_map_range dfF.height i hi]
            rfl
        · refine (cell_cols_tail _ _ _ _ i ?_).trans ((cell_cols_tail _ _ _ _ i ?_).trans ((cell_cols_tail _ _ _ _ i ?_).trans ((cell_cols_tail _ _ _ _ i ?_).trans ((cell_cols_tail _ _ _ _ i ?_).trans ((cell_cols_tail _ _ _ _ i ?_).trans ((cell_cols_head _ _ _ _ i).trans ?_))))))
          · rfl
          · rfl
          · rfl
          · rfl
          · rfl
          · rfl
          · rw [List.map_map, chunkedGet_map_range dfF.height i hi]
            rfl

/-- Witness for C5: on a concrete two-row table (row 0 complete, row 1 with a
null X cell) and a solutionless collaborator, `batch_inverse` returns the
two-row all-null table: the heights match and the incomplete row's cell is
null, computed from that row's cells alone; same for a one-row
`batch_forward` input with a null cell. -/
theorem C5_row_semantics_witness :
    nullOut.height = toyDf.height
    ∧ nullOut.cell "J1" 1 = none
    ∧ nullOutF.height = toyDfF.height := by
  have h := C5_row_semantics (mkToyRobot noSolKin) toyDf toyDfF none nullOut nullOutF
  have hinv := h.1 rfl
  have hfwd := h.2 rfl
  refine ⟨hinv.1, ?_, hfwd.1⟩
  have hc := hinv.2.2 [some 1, none] [some 1, some 1] [some 1, some 1] [some 1, some 1]
    [some 1, some 1] [some 1, some 1] [some 1, some 1] rfl rfl rfl rfl rfl rfl rfl
    1 (by norm_num [toyDf]) 0
  exact hc.trans rfl
